import Mathlib

/-!
Verification of the BudgetBuddy expense tracker's computational core
(`src/app.py`): the per-month aggregator `totals_for_month`, the
comparison-row derivation shared by `monthly_summary` and
`download_summary_svg`, the pie-slice builder `make_pie_paths`, the
bar-chart scaling of `download_summary_svg`, the default comparison
period, and the date-parsing fallback of `add_expense` / `edit_expense`.

Modelling conventions: Python floats are modelled as rationals (`ℚ`);
`round(x, 2)` is modelled as `round2`; trigonometric evaluation
(`math.cos (math.radians (θ))`, `math.sin (math.radians (θ))`) is kept
abstract as parameters `cosD sinD : ℚ → ℚ` taking the angle in degrees,
since no claim depends on trigonometric values; Python dicts
(insertion-ordered, update-in-place) are association lists; SVG path
strings are modelled structurally as lists of path commands.
-/

namespace BudgetBuddy

/-- A calendar date, as stored on an `Expense` row (`datetime.date`). -/
structure Date where
  year : Nat
  month : Nat
  day : Nat
deriving DecidableEq

/-- An expense record (`class Expense` in `src/app.py`); the `id` and
`user_id` columns play no role in the claims and are omitted. -/
structure Expense where
  title : String
  amount : ℚ
  category : String
  date : Date
deriving DecidableEq

/-- Python's `round(x, 2)`: round to two decimal places. -/
def round2 (q : ℚ) : ℚ := (round (100 * q) : ℤ) / 100

/-- Python `totals[e.category] = totals.get(e.category, 0.0) + e.amount` on an
insertion-ordered dict modelled as an association list: update in place
if the key is present, else append at the end. -/
def updateTotals : List (String × ℚ) → String → ℚ → List (String × ℚ)
  | [], cat, amt => [(cat, amt)]
  | (k, v) :: rest, cat, amt =>
      if k = cat then (k, v + amt) :: rest
      else (k, v) :: updateTotals rest cat amt

/-- Function `totals_for_month(month, year)` from `src/app.py`: filter the expense
rows to the given month and year, then accumulate per-category totals and
the grand total in one pass. -/
def totals_for_month (expenses : List Expense) (month year : Nat) :
    List (String × ℚ) × ℚ :=
  (expenses.filter (fun e => e.date.year == year && e.date.month == month)).foldl
    (fun acc e => (updateTotals acc.1 e.category e.amount, acc.2 + e.amount))
    ([], 0)

/-- The `pct_change` value of a comparison row: Python `None`, the string
sentinel `"inf"`, or a number. -/
inductive PctChange where
  | null
  | inf
  | val (q : ℚ)
deriving DecidableEq

/-- One comparison row built in `monthly_summary` / `download_summary_svg`. -/
structure Row where
  category : String
  primary : ℚ
  compare : ℚ
  diff : ℚ
  pct_change : PctChange
deriving DecidableEq

/-- Python `m.get(cat, 0.0)` on an association list. -/
def mapGet (m : List (String × ℚ)) (cat : String) : ℚ :=
  match m.find? (fun kv => kv.1 == cat) with
  | some kv => kv.2
  | none => 0

/-- The keys of a totals map, in insertion order (`list(m.keys())`). -/
def mapKeys (m : List (String × ℚ)) : List String := m.map Prod.fst

/-- Python `sorted(set(list(primary.keys()) + list(compare.keys())))`: the union
of the two key sets as a deduplicated, lexicographically sorted list. -/
def sortedCategories (pm cm : List (String × ℚ)) : List String :=
  ((mapKeys pm ++ mapKeys cm).dedup).mergeSort (fun a b => a ≤ b)

/-- The loop body of the comparison construction in `monthly_summary`
(lines 379-395) and `download_summary_svg` (lines 473-482): round both
totals, take the difference, and derive the percent change. -/
def buildRow (pm cm : List (String × ℚ)) (cat : String) : Row :=
  let p := round2 (mapGet pm cat)
  let c := round2 (mapGet cm cat)
  let diff := round2 (p - c)
  let pct : PctChange :=
    if c = 0 then (if p = 0 then .null else .inf)
    else .val (round2 (diff / c * 100))
  ⟨cat, p, c, diff, pct⟩

/-- All comparison rows, one per sorted union category. -/
def comparisonRows (pm cm : List (String × ℚ)) : List Row :=
  (sortedCategories pm cm).map (buildRow pm cm)

/-- One input slice to `make_pie_paths`: `{'category':..., 'value':...}`. -/
structure Slice where
  category : String
  value : ℚ
deriving DecidableEq

/-- A structural rendering of one SVG path command, standing for the
corresponding fragment of the `d` string built at line 324 of
`src/app.py`. -/
inductive PathCmd where
  | moveTo (x y : ℚ)
  | lineTo (x y : ℚ)
  | arc (rx ry xRot : ℚ) (largeArc sweep : Nat) (x y : ℚ)
  | close
deriving DecidableEq

/-- One output dict of `make_pie_paths`. -/
structure PieSlice where
  d : List PathCmd
  color : String
  label_x : ℚ
  label_y : ℚ
  label : String
  value : ℚ
  pct : ℚ
deriving DecidableEq

/-- The default palette of `make_pie_paths` (line 298 of `src/app.py`). -/
def defaultColors : List String :=
  ["#3A9AD9", "#FF6B78", "#FFD166", "#6BCB77", "#8E63FF", "#FF9F80"]

/-- The body of the `for i, s in enumerate(slices)` loop of
`make_pie_paths` for one emitted slice: `i` is the slice's index in the
input list, `start_angle` the running angle in degrees.  `cosD` and
`sinD` abstract `math.cos(math.radians(·))` and
`math.sin(math.radians(·))` on degrees. -/
def sliceOut (cosD sinD : ℚ → ℚ) (cx cy r : ℚ) (colors : List String)
    (total : ℚ) (i : Nat) (s : Slice) (start_angle : ℚ) : PieSlice :=
  let value := s.value
  let angle := value / total * 360
  let end_angle := start_angle + angle
  let x1 := cx + r * cosD (start_angle - 90)
  let y1 := cy + r * sinD (start_angle - 90)
  let x2 := cx + r * cosD (end_angle - 90)
  let y2 := cy + r * sinD (end_angle - 90)
  let large_arc : Nat := if 180 < angle then 1 else 0
  let mid_angle := start_angle + angle / 2
  let label_r := r * (62 / 100)
  { d := [.moveTo cx cy, .lineTo x1 y1, .arc r r 0 large_arc 1 x2 y2, .close]
    color := colors.getD (i % colors.length) ""
    label_x := cx + label_r * cosD (mid_angle - 90)
    label_y := cy + label_r * sinD (mid_angle - 90)
    label := s.category
    value := round2 value
    pct := round2 (value / total * 100) }

/-- The `for i, s in enumerate(slices)` loop of `make_pie_paths`: skip
slices with `value <= 0` (the running angle is untouched), otherwise
emit the slice and advance the running angle by its span. -/
def pieLoop (cosD sinD : ℚ → ℚ) (cx cy r : ℚ) (colors : List String)
    (total : ℚ) : List (Nat × Slice) → ℚ → List PieSlice
  | [], _ => []
  | (i, s) :: rest, start_angle =>
      if s.value ≤ 0 then
        pieLoop cosD sinD cx cy r colors total rest start_angle
      else
        sliceOut cosD sinD cx cy r colors total i s start_angle ::
          pieLoop cosD sinD cx cy r colors total rest
            (start_angle + s.value / total * 360)

/-- Line `if not colors: colors = [...]` at lines 296-298 of `src/app.py`. -/
def effColors (colors : List String) : List String :=
  if colors.isEmpty then defaultColors else colors

/-- Function `make_pie_paths(slices, total, cx, cy, r, colors)` from `src/app.py`. -/
def make_pie_paths (cosD sinD : ℚ → ℚ) (slices : List Slice) (total : ℚ)
    (cx cy r : ℚ) (colors : List String) : List PieSlice :=
  if total ≤ 0 then []
  else pieLoop cosD sinD cx cy r (effColors colors) total slices.enum 0

/-- The angular span, in degrees, of one slice:
`angle = (value / total) * 360.0`. -/
def span (total : ℚ) (s : Slice) : ℚ := s.value / total * 360

/-- Pair each element of a list with a running start angle that begins
at the given angle and advances by each element's span. -/
def withStartAngles (total : ℚ) :
    List (Nat × Slice) → ℚ → List ((Nat × Slice) × ℚ)
  | [], _ => []
  | p :: rest, a => (p, a) :: withStartAngles total rest (a + span total p.2)

/-- Spec-side description of the slice builder (§4.2 of the spec, stated
from the spec's words rather than the code, for comparison with
`make_pie_paths`): if the total is not positive there are no slices;
otherwise exactly the positive-value slices are rendered in input order,
each paired with a start angle that begins at 0° and advances by
exactly the emitted slice's span. -/
def pieSlicesFromSpec (cosD sinD : ℚ → ℚ) (slices : List Slice) (total : ℚ)
    (cx cy r : ℚ) (colors : List String) : List PieSlice :=
  if total ≤ 0 then []
  else
    (withStartAngles total (slices.enum.filter (fun p => 0 < p.2.value)) 0).map
      (fun q => sliceOut cosD sinD cx cy r (effColors colors) total q.1.1 q.1.2 q.2)

/-- The `max_bar_value` accumulation (lines 486-488 / 411-413 of
`src/app.py`): fold of `max(acc, row.primary, row.compare)` from `0.0`. -/
def rowsMax (comparison : List Row) : ℚ :=
  comparison.foldl (fun acc r => max (max acc r.primary) r.compare) 0

/-- The `max_bar_value` after the zero fallback (lines 489-491):
`max(primary_total, compare_total, 1.0)` when the fold gives `0`. -/
def maxBarValue (comparison : List Row) (ptot ctot : ℚ) : ℚ :=
  if rowsMax comparison = 0 then max (max ptot ctot) 1 else rowsMax comparison

/-- A bar's pixel width (lines 527-528):
`(v / max_bar_value) * bar_max_width if max_bar_value else 0`. -/
def barWidth (v maxBar barMaxWidth : ℚ) : ℚ :=
  if maxBar ≠ 0 then v / maxBar * barMaxWidth else 0

/-- The `calendar.isleap`-equivalent used by `datetime` date arithmetic. -/
def isLeap (y : Nat) : Bool :=
  y % 4 == 0 && (y % 100 != 0 || y % 400 == 0)

/-- Number of days in a month, as in the Gregorian calendar used by
`datetime.date`. -/
def daysInMonth (year month : Nat) : Nat :=
  if month = 2 then (if isLeap year then 29 else 28)
  else if month = 4 ∨ month = 6 ∨ month = 9 ∨ month = 11 then 30
  else 31

/-- Python `date(year, month, day)`: `none` models the `ValueError`
raised outside the supported calendar range (`MINYEAR = 1`,
`MAXYEAR = 9999`, month in `1..12`, day valid for the month). -/
def mkDate (year month day : Nat) : Option Date :=
  if 1 ≤ year && year ≤ 9999 && 1 ≤ month && month ≤ 12
      && 1 ≤ day && day ≤ daysInMonth year month then
    some ⟨year, month, day⟩
  else none

/-- Library `datetime` subtraction of one day (`- timedelta(days=1)`) on
a valid date; `none` models the `OverflowError`/out-of-range error when
the result would precede `date.min` (year 1, month 1, day 1). -/
def subOneDay (d : Date) : Option Date :=
  if 1 < d.day then some ⟨d.year, d.month, d.day - 1⟩
  else if 1 < d.month then
    some ⟨d.year, d.month - 1, daysInMonth d.year (d.month - 1)⟩
  else if 1 < d.year then some ⟨d.year - 1, 12, 31⟩
  else none

/-- The default comparison period (lines 362-366 / 459-463 of
`src/app.py`): `date(year, month, 1) - timedelta(days=1)`, returning
`(compare_month, compare_year)`; `none` models the request erroring out
because the date construction or the subtraction raises. -/
def defaultCompare (month year : Nat) : Option (Nat × Nat) :=
  match mkDate year month 1 with
  | none => none
  | some d =>
      match subOneDay d with
      | none => none
      | some prev => some (prev.month, prev.year)

/-- Split a character list on the dash character, as `"%Y-%m-%d"`
parsing does on the three fields. -/
def splitOnDash : List Char → List (List Char)
  | [] => [[]]
  | c :: rest =>
      match splitOnDash rest with
      | [] => [[]]
      | h :: t => if c = '-' then [] :: h :: t else (c :: h) :: t

/-- A nonempty all-digit field. -/
def isDigitField (l : List Char) : Bool := !l.isEmpty && l.all Char.isDigit

/-- Decimal value of a digit field. -/
def digitsToNat (l : List Char) : Nat :=
  l.foldl (fun n c => 10 * n + (c.toNat - 48)) 0

/-- Python `datetime.strptime(s, "%Y-%m-%d").date()` as a fallible
parse: three dash-separated digit fields shaped like CPython's
`_strptime` regex (`%Y` is exactly four digits, `%m` and `%d` one or two
digits), then the `date` constructor's range checks (month in `1..12`,
day valid for the month, year in `1..9999`). -/
def parseDate (s : String) : Option Date :=
  match splitOnDash s.toList with
  | [ys, ms, ds] =>
      if isDigitField ys && isDigitField ms && isDigitField ds
          && ys.length == 4 && ms.length ≤ 2 && ds.length ≤ 2 then
        mkDate (digitsToNat ys) (digitsToNat ms) (digitsToNat ds)
      else none
  | _ => none

/-- The date computed by `add_expense` (lines 206-210 of `src/app.py`):
empty field or failed parse both yield today's date. -/
def addExpenseDate (date_str : String) (today : Date) : Date :=
  if date_str = "" then today
  else
    match parseDate date_str with
    | some d => d
    | none => today

/-- The date stored by `edit_expense` (lines 244-248 of `src/app.py`):
an empty field keeps the record's current date, a successful parse
replaces it, and a failed parse raises inside the `try` and is swallowed
by `except: pass`, leaving the current date unchanged. -/
def editExpenseDate (date_str : String) (current : Date) : Date :=
  if date_str = "" then current
  else
    match parseDate date_str with
    | some d => d
    | none => current

/-! ### Helper lemmas -/

/-- Sum of the values of a totals map. -/
def sumValues (m : List (String × ℚ)) : ℚ := (m.map Prod.snd).sum

theorem sumValues_nil : sumValues [] = 0 := rfl

theorem sumValues_cons (kv : String × ℚ) (rest : List (String × ℚ)) :
    sumValues (kv :: rest) = kv.2 + sumValues rest := by
  simp [sumValues]

theorem sumValues_updateTotals (t : List (String × ℚ)) (cat : String) (amt : ℚ) :
    sumValues (updateTotals t cat amt) = sumValues t + amt := by
  induction t with
  | nil => simp [updateTotals, sumValues]
  | cons kv rest ih =>
      obtain ⟨k, v⟩ := kv
      by_cases h : k = cat
      · simp only [updateTotals, if_pos h, sumValues_cons]
        ring
      · simp only [updateTotals, if_neg h, sumValues_cons, ih]
        ring

/-- The aggregation step of `totals_for_month`. -/
def totalsStep (acc : List (String × ℚ) × ℚ) (e : Expense) :
    List (String × ℚ) × ℚ :=
  (updateTotals acc.1 e.category e.amount, acc.2 + e.amount)

theorem totalsFold_invariant (l : List Expense) :
    ∀ t q, sumValues (l.foldl totalsStep (t, q)).1 =
        sumValues t + (l.map (fun e => e.amount)).sum ∧
      (l.foldl totalsStep (t, q)).2 = q + (l.map (fun e => e.amount)).sum := by
  induction l with
  | nil => intro t q; simp
  | cons e rest ih =>
      intro t q
      have h := ih (updateTotals t e.category e.amount) (q + e.amount)
      constructor
      · simp only [List.foldl_cons, List.map_cons, List.sum_cons, totalsStep] at h ⊢
        rw [h.1, sumValues_updateTotals]
        ring
      · simp only [List.foldl_cons, List.map_cons, List.sum_cons, totalsStep] at h ⊢
        rw [h.2]
        ring

/-! ### Claims -/

/-- C9: for every collection of expense records and target (month, year),
the grand total returned by `totals_for_month` equals the sum of the
values of the returned per-category totals map. -/
theorem aggregator_grand_total_eq_sum_of_category_totals
    (expenses : List Expense) (month year : Nat) :
    (totals_for_month expenses month year).2 =
      sumValues (totals_for_month expenses month year).1 := by
  have h := totalsFold_invariant
    (expenses.filter (fun e => e.date.year == year && e.date.month == month)) [] 0
  simp only [sumValues_nil, zero_add] at h
  unfold totals_for_month
  rw [show (fun (acc : List (String × ℚ) × ℚ) (e : Expense) =>
        (updateTotals acc.1 e.category e.amount, acc.2 + e.amount)) = totalsStep
      from rfl]
  rw [h.1, h.2]

theorem daysInMonth_pos (y m : Nat) : 0 < daysInMonth y m := by
  unfold daysInMonth
  split
  · split <;> norm_num
  · split <;> norm_num

/-- C10: when `compare_month` or `compare_year` is absent, for every
primary `(month, year)` that `date(year, month, 1)` accepts and whose
previous month is still in `datetime`'s range, the comparison period
defaults to the calendar month immediately preceding the primary:
`(month - 1, year)` for `month ≥ 2`, and `(12, year - 1)` for
`month = 1` (the latter needing `year ≥ 2`, since subtracting a day from
`date(1, 1, 1)` raises). -/
theorem default_compare_is_previous_month (month year : Nat)
    (hm1 : 1 ≤ month) (hm2 : month ≤ 12) (hy1 : 1 ≤ year) (hy2 : year ≤ 9999) :
    (2 ≤ month → defaultCompare month year = some (month - 1, year)) ∧
    (month = 1 → 2 ≤ year → defaultCompare month year = some (12, year - 1)) := by
  have hd : 0 < daysInMonth year month := daysInMonth_pos year month
  have hmk : mkDate year month 1 = some ⟨year, month, 1⟩ := by
    unfold mkDate
    rw [if_pos]
    simp only [Bool.and_eq_true, decide_eq_true_eq]
    omega
  constructor
  · intro h2
    have hlt : 1 < month := h2
    simp [defaultCompare, hmk, subOneDay, hlt]
  · intro h1 hy
    subst h1
    have hylt : 1 < year := hy
    simp [defaultCompare, hmk, subOneDay, hylt]

theorem default_compare_is_previous_month_witness :
    defaultCompare 1 2024 = some (12, 2024 - 1) :=
  (default_compare_is_previous_month 1 2024 (by decide) (by decide) (by decide)
    (by decide)).2 rfl (by decide)

theorem le_foldl_rowsMax (l : List Row) :
    ∀ a : ℚ, a ≤ l.foldl (fun acc r => max (max acc r.primary) r.compare) a := by
  induction l with
  | nil => intro a; simp
  | cons r rest ih =>
      intro a
      calc a ≤ max (max a r.primary) r.compare :=
            le_trans (le_max_left _ _) (le_max_left _ _)
        _ ≤ _ := ih _

theorem rowsMax_nonneg (l : List Row) : 0 ≤ rowsMax l := le_foldl_rowsMax l 0

theorem rowsMax_eq_zero_of_all_zero (l : List Row)
    (h : ∀ r ∈ l, r.primary = 0 ∧ r.compare = 0) : rowsMax l = 0 := by
  induction l with
  | nil => rfl
  | cons r rest ih =>
      have hr := h r (List.mem_cons_self r rest)
      have hrest : ∀ s ∈ rest, s.primary = 0 ∧ s.compare = 0 :=
        fun s hs => h s (List.mem_cons_of_mem r hs)
      simp only [rowsMax, List.foldl_cons, hr.1, hr.2] at *
      simpa using ih hrest

/-- C6: the bar-width scaling denominator of `download_summary_svg` is
always strictly positive (so no division by zero occurs); when the
maximum category value over both periods is `0` the denominator falls
back to `max(primary_total, compare_total, 1)`; and in the all-zero case
the denominator is `1` and every bar width is `0`. -/
theorem bar_scaling_denominator_never_zero
    (comparison : List Row) (ptot ctot barMaxWidth : ℚ) :
    0 < maxBarValue comparison ptot ctot ∧
    (rowsMax comparison = 0 →
      maxBarValue comparison ptot ctot = max (max ptot ctot) 1) ∧
    ((∀ r ∈ comparison, r.primary = 0 ∧ r.compare = 0) → ptot = 0 → ctot = 0 →
      maxBarValue comparison ptot ctot = 1 ∧
      ∀ r ∈ comparison,
        barWidth r.primary (maxBarValue comparison ptot ctot) barMaxWidth = 0 ∧
        barWidth r.compare (maxBarValue comparison ptot ctot) barMaxWidth = 0) := by
  refine ⟨?_, ?_, ?_⟩
  · unfold maxBarValue
    split
    · exact lt_of_lt_of_le zero_lt_one (le_max_right _ _)
    · exact lt_of_le_of_ne (rowsMax_nonneg comparison) (Ne.symm (by assumption))
  · intro h
    simp [maxBarValue, h]
  · intro hall hp hc
    have hz := rowsMax_eq_zero_of_all_zero comparison hall
    have hmb : maxBarValue comparison ptot ctot = 1 := by
      simp [maxBarValue, hz, hp, hc]
    refine ⟨hmb, fun r hr => ?_⟩
    have hr0 := hall r hr
    rw [hr0.1, hr0.2]
    constructor <;>
      · unfold barWidth
        split <;> simp

theorem bar_scaling_denominator_never_zero_witness :
    maxBarValue [⟨"Food", 0, 0, 0, .null⟩] 0 0 = 1 ∧
    ∀ r ∈ [(⟨"Food", 0, 0, 0, .null⟩ : Row)],
      barWidth r.primary (maxBarValue [⟨"Food", 0, 0, 0, .null⟩] 0 0) 800 = 0 ∧
      barWidth r.compare (maxBarValue [⟨"Food", 0, 0, 0, .null⟩] 0 0) 800 = 0 :=
  (bar_scaling_denominator_never_zero [⟨"Food", 0, 0, 0, .null⟩] 0 0 800).2.2
    (by decide) (by decide) (by decide)

theorem round2_int_div (n : ℤ) : round2 ((n : ℚ) / 100) = (n : ℚ) / 100 := by
  unfold round2
  have h : (100 : ℚ) * ((n : ℚ) / 100) = (n : ℚ) := by
    field_simp
  rw [h, round_intCast]

theorem round2_sub_round2 (a b : ℚ) :
    round2 (round2 a - round2 b) = round2 a - round2 b := by
  have ha : round2 a = ((round (100 * a) : ℤ) : ℚ) / 100 := rfl
  have hb : round2 b = ((round (100 * b) : ℤ) : ℚ) / 100 := rfl
  rw [ha, hb]
  have h : ((round (100 * a) : ℤ) : ℚ) / 100 - ((round (100 * b) : ℤ) : ℚ) / 100 =
      ((round (100 * a) - round (100 * b) : ℤ) : ℚ) / 100 := by
    push_cast
    ring
  rw [h, round2_int_div]

/-- C7: the comparison rows' category sequence is the union of the
categories of the two totals maps, sorted ascending, with each category
appearing exactly once. -/
theorem comparison_categories_sorted_union (pm cm : List (String × ℚ)) :
    (comparisonRows pm cm).map (fun r => r.category) = sortedCategories pm cm ∧
    List.Sorted (· ≤ ·) (sortedCategories pm cm) ∧
    (sortedCategories pm cm).Nodup ∧
    (∀ c, c ∈ sortedCategories pm cm ↔ (c ∈ mapKeys pm ∨ c ∈ mapKeys cm)) := by
  refine ⟨?_, ?_, ?_, ?_⟩
  · have hcat : ((fun r : Row => r.category) ∘ buildRow pm cm) = id :=
      funext fun _ => rfl
    rw [comparisonRows, List.map_map, hcat, List.map_id]
  · have h := @List.sorted_mergeSort String (fun a b : String => a ≤ b)
      (fun a b c hab hbc => by
        simp only [decide_eq_true_eq] at *
        exact le_trans hab hbc)
      (fun a b => by
        simp only [Bool.or_eq_true, decide_eq_true_eq]
        exact le_total a b)
      ((mapKeys pm ++ mapKeys cm).dedup)
    exact h.imp (fun hab => by simpa using hab)
  · exact (List.mergeSort_perm _ _).nodup_iff.mpr (List.nodup_dedup _)
  · intro c
    rw [sortedCategories, (List.mergeSort_perm _ _).mem_iff, List.mem_dedup,
      List.mem_append]

/-- C1: in every comparison row, with rounded totals `p` (primary) and
`c` (compare): if `c = 0` and `p = 0` the percent change is null; if
`c = 0` and `p ≠ 0` it is the non-numeric sentinel (distinct from every
numeric percent change); otherwise it equals `(p - c) / c * 100` rounded
to two decimals. -/
theorem percent_change_cases (pm cm : List (String × ℚ)) (row : Row)
    (hmem : row ∈ comparisonRows pm cm) :
    (row.compare = 0 → row.primary = 0 → row.pct_change = PctChange.null) ∧
    (row.compare = 0 → row.primary ≠ 0 → row.pct_change = PctChange.inf) ∧
    (row.compare ≠ 0 → row.pct_change =
      PctChange.val (round2 ((row.primary - row.compare) / row.compare * 100))) ∧
    (∀ q : ℚ, PctChange.inf ≠ PctChange.val q) := by
  obtain ⟨cat, -, hrow⟩ := List.mem_map.mp hmem
  subst hrow
  have hp : (buildRow pm cm cat).primary = round2 (mapGet pm cat) := rfl
  have hc : (buildRow pm cm cat).compare = round2 (mapGet cm cat) := rfl
  refine ⟨?_, ?_, ?_, fun q h => PctChange.noConfusion h⟩
  · intro hc0 hp0
    rw [hp] at hp0
    rw [hc] at hc0
    simp [buildRow, hc0, hp0]
  · intro hc0 hp0
    rw [hp] at hp0
    rw [hc] at hc0
    simp [buildRow, hc0, hp0]
  · intro hc0
    rw [hc] at hc0
    simp only [buildRow, hp, hc, if_neg hc0]
    rw [round2_sub_round2]

theorem percent_change_cases_witness :
    (buildRow [("Food", 100)] [("Food", 80)] "Food").pct_change =
      PctChange.val (round2
        (((buildRow [("Food", 100)] [("Food", 80)] "Food").primary -
            (buildRow [("Food", 100)] [("Food", 80)] "Food").compare) /
          (buildRow [("Food", 100)] [("Food", 80)] "Food").compare * 100)) :=
  (percent_change_cases [("Food", 100)] [("Food", 80)]
      (buildRow [("Food", 100)] [("Food", 80)] "Food")
      (by simp [comparisonRows, sortedCategories, mapKeys,
            List.mergeSort_singleton])).2.2.1
    (by norm_num [buildRow, mapGet, round2, round_eq])

theorem pieLoop_eq_withStartAngles (cosD sinD : ℚ → ℚ) (cx cy r : ℚ)
    (colors : List String) (total : ℚ) (l : List (Nat × Slice)) :
    ∀ a, pieLoop cosD sinD cx cy r colors total l a =
      (withStartAngles total (l.filter (fun p => 0 < p.2.value)) a).map
        (fun q => sliceOut cosD sinD cx cy r colors total q.1.1 q.1.2 q.2) := by
  induction l with
  | nil => intro a; rfl
  | cons p rest ih =>
      intro a
      obtain ⟨i, s⟩ := p
      by_cases h : s.value ≤ 0
      · have hf : ¬ (0 < s.value) := not_lt.mpr h
        simp [pieLoop, h, List.filter_cons, hf, ih]
      · have hf : 0 < s.value := not_le.mp h
        simp [pieLoop, h, List.filter_cons, hf, withStartAngles, span, ih]

theorem make_pie_paths_eq_spec (cosD sinD : ℚ → ℚ) (slices : List Slice)
    (total cx cy r : ℚ) (colors : List String) :
    make_pie_paths cosD sinD slices total cx cy r colors =
      pieSlicesFromSpec cosD sinD slices total cx cy r colors := by
  unfold make_pie_paths pieSlicesFromSpec
  split
  · rfl
  · exact pieLoop_eq_withStartAngles cosD sinD cx cy r (effColors colors) total
      slices.enum 0

theorem withStartAngles_map_fst {β : Type} (total : ℚ) (f : Nat × Slice → β) :
    ∀ (l : List (Nat × Slice)) (a : ℚ),
      (withStartAngles total l a).map (fun q => f q.1) = l.map f := by
  intro l
  induction l with
  | nil => intro a; rfl
  | cons p rest ih => intro a; simp [withStartAngles, ih]

theorem enumFrom_filter_map_snd {β : Type} (q : Slice → Bool) (f : Slice → β) :
    ∀ (l : List Slice) (n : Nat),
      ((List.enumFrom n l).filter (fun p => q p.2)).map (fun p => f p.2) =
        (l.filter q).map f := by
  intro l
  induction l with
  | nil => intro n; rfl
  | cons x rest ih =>
      intro n
      by_cases h : q x
      · simp [List.enumFrom, List.filter_cons, h, ih]
      · simp [List.enumFrom, List.filter_cons, h, ih]

theorem make_pie_paths_labels (cosD sinD : ℚ → ℚ) (slices : List Slice)
    (total cx cy r : ℚ) (colors : List String) (hpos : 0 < total) :
    (make_pie_paths cosD sinD slices total cx cy r colors).map (fun p => p.label) =
      (slices.filter (fun s => 0 < s.value)).map (fun s => s.category) := by
  rw [make_pie_paths, if_neg (not_le.mpr hpos),
    pieLoop_eq_withStartAngles, List.map_map]
  have h1 : ((fun p : PieSlice => p.label) ∘
      (fun q : (Nat × Slice) × ℚ =>
        sliceOut cosD sinD cx cy r (effColors colors) total q.1.1 q.1.2 q.2)) =
      (fun q : (Nat × Slice) × ℚ => q.1.2.category) := funext fun _ => rfl
  rw [h1]
  rw [withStartAngles_map_fst total (fun p => p.2.category)]
  exact enumFrom_filter_map_snd (fun s => decide (0 < s.value))
    (fun s => s.category) slices 0

theorem sum_map_span (total : ℚ) (l : List Slice) :
    (l.map (span total)).sum = (l.map (fun s => s.value)).sum / total * 360 := by
  induction l with
  | nil => simp
  | cons s rest ih =>
      simp only [List.map_cons, List.sum_cons, span, ih]
      ring

theorem filter_pos_sum_eq (l : List Slice) (h : ∀ s ∈ l, 0 ≤ s.value) :
    ((l.filter (fun s => 0 < s.value)).map (fun s => s.value)).sum =
      (l.map (fun s => s.value)).sum := by
  induction l with
  | nil => rfl
  | cons s rest ih =>
      have hs := h s (List.mem_cons_self s rest)
      have hrest : ∀ t ∈ rest, 0 ≤ t.value :=
        fun t ht => h t (List.mem_cons_of_mem s ht)
      by_cases hp : 0 < s.value
      · simp [List.filter_cons, hp, ih hrest]
      · have hz : s.value = 0 := le_antisymm (not_lt.mp hp) hs
        simp [List.filter_cons, hp, hz, ih hrest]

/-- C2: with non-negative slice values summing to a positive total, the
builder's output equals the spec-side description (slices in input order,
running start angle beginning at 0° and advancing by exactly each emitted
slice's span), and the emitted spans sum to 360°. -/
theorem pie_slices_partition_circle (cosD sinD : ℚ → ℚ) (slices : List Slice)
    (total cx cy r : ℚ) (colors : List String)
    (hnn : ∀ s ∈ slices, 0 ≤ s.value)
    (hsum : (slices.map (fun s => s.value)).sum = total)
    (hpos : 0 < total) :
    make_pie_paths cosD sinD slices total cx cy r colors =
      pieSlicesFromSpec cosD sinD slices total cx cy r colors ∧
    (make_pie_paths cosD sinD slices total cx cy r colors).map (fun p => p.label) =
      (slices.filter (fun s => 0 < s.value)).map (fun s => s.category) ∧
    ((slices.filter (fun s => 0 < s.value)).map (span total)).sum = 360 := by
  refine ⟨make_pie_paths_eq_spec cosD sinD slices total cx cy r colors,
    make_pie_paths_labels cosD sinD slices total cx cy r colors hpos, ?_⟩
  rw [sum_map_span, filter_pos_sum_eq slices hnn, hsum,
    div_self (ne_of_gt hpos), one_mul]

theorem pie_slices_partition_circle_witness :
    make_pie_paths id id [⟨"Food", 100⟩, ⟨"Travel", 0⟩, ⟨"Bills", 50⟩] 150
        120 120 100 [] =
      pieSlicesFromSpec id id [⟨"Food", 100⟩, ⟨"Travel", 0⟩, ⟨"Bills", 50⟩] 150
        120 120 100 [] ∧
    (make_pie_paths id id [⟨"Food", 100⟩, ⟨"Travel", 0⟩, ⟨"Bills", 50⟩] 150
        120 120 100 []).map (fun p => p.label) =
      ([⟨"Food", 100⟩, ⟨"Travel", 0⟩, ⟨"Bills", 50⟩].filter
        (fun s : Slice => 0 < s.value)).map (fun s => s.category) ∧
    (([⟨"Food", 100⟩, ⟨"Travel", 0⟩, ⟨"Bills", 50⟩].filter
        (fun s : Slice => 0 < s.value)).map (span 150)).sum = 360 :=
  pie_slices_partition_circle id id [⟨"Food", 100⟩, ⟨"Travel", 0⟩, ⟨"Bills", 50⟩]
    150 120 120 100 [] (by decide) (by norm_num) (by decide)

/-- C3: a non-positive total yields the empty slice list; otherwise
exactly the input slices with strictly positive value are emitted, and a
skipped slice leaves the running start angle (and the output) unchanged. -/
theorem nonpositive_total_and_skipped_slices (cosD sinD : ℚ → ℚ)
    (slices : List Slice) (total cx cy r : ℚ) (colors : List String) :
    (total ≤ 0 → make_pie_paths cosD sinD slices total cx cy r colors = []) ∧
    (0 < total →
      (make_pie_paths cosD sinD slices total cx cy r colors).map
          (fun p => p.label) =
        (slices.filter (fun s => 0 < s.value)).map (fun s => s.category)) ∧
    (∀ (i : Nat) (s : Slice) (rest : List (Nat × Slice)) (a : ℚ),
      s.value ≤ 0 →
        pieLoop cosD sinD cx cy r colors total ((i, s) :: rest) a =
          pieLoop cosD sinD cx cy r colors total rest a) := by
  refine ⟨?_, make_pie_paths_labels cosD sinD slices total cx cy r colors, ?_⟩
  · intro h
    simp [make_pie_paths, h]
  · intro i s rest a h
    simp [pieLoop, h]

theorem nonpositive_total_and_skipped_slices_witness :
    make_pie_paths id id [⟨"Food", 100⟩] 0 120 120 100 [] = [] ∧
    (make_pie_paths id id [⟨"Food", 100⟩, ⟨"Travel", 0⟩, ⟨"Bills", 50⟩] 150
        120 120 100 []).map (fun p => p.label) =
      ([⟨"Food", 100⟩, ⟨"Travel", 0⟩, ⟨"Bills", 50⟩].filter
        (fun s : Slice => 0 < s.value)).map (fun s => s.category) ∧
    pieLoop id id 120 120 100 defaultColors 150 [(1, ⟨"Travel", 0⟩)] 240 =
      pieLoop id id 120 120 100 defaultColors 150 [] 240 :=
  ⟨(nonpositive_total_and_skipped_slices id id [⟨"Food", 100⟩] 0
      120 120 100 []).1 (by decide),
   (nonpositive_total_and_skipped_slices id id
      [⟨"Food", 100⟩, ⟨"Travel", 0⟩, ⟨"Bills", 50⟩] 150 120 120 100 []).2.1
      (by decide),
   (nonpositive_total_and_skipped_slices id id
      [⟨"Food", 100⟩, ⟨"Travel", 0⟩, ⟨"Bills", 50⟩] 150 120 120 100 []).2.2
      1 ⟨"Travel", 0⟩ [] 240 (by decide)⟩

/-- C4 as stated is false: a skipped (`value ≤ 0`) slice does consume a
color-palette slot, because the color index is the slice's position in
the input list, not its position among emitted slices.  With input
`[("A", 0), ("B", 1)]` the only emitted slice is the 0th emitted one,
yet it receives palette color index 1, not index 0. -/
theorem slice_color_skipped_consumes_slot_counterexample :
    (make_pie_paths id id [⟨"A", 0⟩, ⟨"B", 1⟩] 1 120 120 100 []).map
        (fun p => p.color) = ["#FF6B78"] ∧
    defaultColors.getD (0 % defaultColors.length) "" = "#3A9AD9" ∧
    ("#FF6B78" : String) ≠ "#3A9AD9" := by
  refine ⟨?_, by decide, by decide⟩
  norm_num [make_pie_paths, pieLoop, effColors, sliceOut, List.enum,
    List.enumFrom, defaultColors]

/-- C4 amended: each emitted slice receives the palette color at
(its index in the input list) modulo the palette length, so slices with
`value ≤ 0` do consume palette slots. -/
theorem slice_color_by_input_index (cosD sinD : ℚ → ℚ) (slices : List Slice)
    (total cx cy r : ℚ) (colors : List String) (hpos : 0 < total) :
    (make_pie_paths cosD sinD slices total cx cy r colors).map (fun p => p.color) =
      (slices.enum.filter (fun p => 0 < p.2.value)).map
        (fun p => (effColors colors).getD (p.1 % (effColors colors).length) "") := by
  rw [make_pie_paths, if_neg (not_le.mpr hpos),
    pieLoop_eq_withStartAngles, List.map_map]
  have h1 : ((fun p : PieSlice => p.color) ∘
      (fun q : (Nat × Slice) × ℚ =>
        sliceOut cosD sinD cx cy r (effColors colors) total q.1.1 q.1.2 q.2)) =
      (fun q : (Nat × Slice) × ℚ =>
        (effColors colors).getD (q.1.1 % (effColors colors).length) "") :=
    funext fun _ => rfl
  rw [h1]
  exact withStartAngles_map_fst total
    (fun p => (effColors colors).getD (p.1 % (effColors colors).length) "") _ 0

theorem slice_color_by_input_index_witness :
    (make_pie_paths id id [⟨"A", 0⟩, ⟨"B", 1⟩] 1 120 120 100 []).map
        (fun p => p.color) =
      (([⟨"A", 0⟩, ⟨"B", 1⟩] : List Slice).enum.filter
        (fun p => 0 < p.2.value)).map
        (fun p => (effColors []).getD (p.1 % (effColors []).length) "") :=
  slice_color_by_input_index id id [⟨"A", 0⟩, ⟨"B", 1⟩] 1 120 120 100 []
    (by decide)

/-- C8: every emitted slice's path is move-to-center, line to the arc
start point, an arc to the arc end point with sweep flag 1 and large-arc
flag 1 exactly when the span exceeds 180°, then a close command. -/
theorem pie_path_structure (cosD sinD : ℚ → ℚ) (slices : List Slice)
    (total cx cy r : ℚ) (colors : List String) (p : PieSlice)
    (hmem : p ∈ make_pie_paths cosD sinD slices total cx cy r colors) :
    ∃ a angle : ℚ,
      p.d = [PathCmd.moveTo cx cy,
        PathCmd.lineTo (cx + r * cosD (a - 90)) (cy + r * sinD (a - 90)),
        PathCmd.arc r r 0 (if 180 < angle then 1 else 0) 1
          (cx + r * cosD (a + angle - 90)) (cy + r * sinD (a + angle - 90)),
        PathCmd.close] ∧
      ((if 180 < angle then (1 : Nat) else 0) = 1 ↔ 180 < angle) := by
  rw [make_pie_paths] at hmem
  by_cases h : total ≤ 0
  · rw [if_pos h] at hmem
    exact absurd hmem (List.not_mem_nil p)
  · rw [if_neg h, pieLoop_eq_withStartAngles] at hmem
    obtain ⟨q, -, hq⟩ := List.mem_map.mp hmem
    refine ⟨q.2, q.1.2.value / total * 360, ?_, ?_⟩
    · rw [← hq]
      rfl
    · by_cases hl : 180 < q.1.2.value / total * 360
      · simp [hl]
      · simp [hl]

theorem pie_path_structure_witness :
    ∃ a angle : ℚ,
      (sliceOut id id 120 120 100 defaultColors 1 0 ⟨"Food", 1⟩ 0).d =
        [PathCmd.moveTo 120 120,
          PathCmd.lineTo (120 + 100 * id (a - 90)) (120 + 100 * id (a - 90)),
          PathCmd.arc 100 100 0 (if 180 < angle then 1 else 0) 1
            (120 + 100 * id (a + angle - 90)) (120 + 100 * id (a + angle - 90)),
          PathCmd.close] ∧
      ((if 180 < angle then (1 : Nat) else 0) = 1 ↔ 180 < angle) :=
  pie_path_structure id id [⟨"Food", 1⟩] 1 120 120 100 []
    (sliceOut id id 120 120 100 defaultColors 1 0 ⟨"Food", 1⟩ 0)
    (by norm_num [make_pie_paths, pieLoop, effColors, List.enum, List.enumFrom])

/-- C5 as stated is false for edits: with the stored date 2023-05-17,
today 2024-01-02 and the present-but-unparseable date field
`"2024-13-40"`, `edit_expense` keeps the stored date 2023-05-17, which is
not today's date. -/
theorem malformed_edit_date_keeps_old_counterexample :
    parseDate "2024-13-40" = none ∧
    editExpenseDate "2024-13-40" ⟨2023, 5, 17⟩ = ⟨2023, 5, 17⟩ ∧
    (⟨2023, 5, 17⟩ : Date) ≠ ⟨2024, 1, 2⟩ := by
  decide

/-- C5 amended: on record creation a present-but-unparseable date field
falls back silently to the current date, while on record edit it silently
leaves the record's previously stored date unchanged; in both cases the
operation succeeds. -/
theorem malformed_date_fallback (s : String) (today current : Date)
    (hne : s ≠ "") (hbad : parseDate s = none) :
    addExpenseDate s today = today ∧ editExpenseDate s current = current := by
  unfold addExpenseDate editExpenseDate
  rw [if_neg hne, if_neg hne, hbad]
  exact ⟨rfl, rfl⟩

theorem malformed_date_fallback_witness :
    addExpenseDate "banana" ⟨2024, 1, 2⟩ = ⟨2024, 1, 2⟩ ∧
    editExpenseDate "banana" ⟨2023, 5, 17⟩ = ⟨2023, 5, 17⟩ :=
  malformed_date_fallback "banana" ⟨2024, 1, 2⟩ ⟨2023, 5, 17⟩
    (by decide) (by decide)

end BudgetBuddy
